import Mathlib

/-!
Verification of the hook execution engine of the amazon-q-developer-cli
chat subsystem: the hook data model, the trigger-dependent cache policy,
and the `run_hooks` pipeline that turns an ordered list of hook
configurations into an ordered list of (hook, output) pairs.

The repository ships only the test module of `cli/chat/hooks.rs`; the
implementation itself (the `Hook` struct, `HookExecutor`, `run_hooks`,
`CachedHook`, `get_cache`, `insert_cache` and the default constants) is
not present in the sources. All engine definitions below are therefore
modelled from the specification document, faithful to its words, and the
tests in `hooks.rs` are used as concrete anchors.

Modelling conventions:
- instants and durations are natural numbers counted in milliseconds;
  `cache_ttl_seconds` is converted with a factor of 1000;
- the platform shell is modelled as a function `Env` from command text to
  a `CommandBehavior` (spawn success, wall-clock duration, captured
  output); a command completes iff it spawns and its duration is within
  the hook's `timeout_ms`;
- the concurrent per-hook pipeline is serialized in input order, which is
  one admissible schedule: the spec requires result order to equal input
  order regardless of completion order, and requires cache-check
  happens-before execution happens-before cache-store within one hook;
- the progress sink is modelled as the list of raw write events performed
  during the call ("empty" means no write happened).
-/

namespace HookEngine

/-- Modelled from the spec: the closed trigger tag (`HookTrigger` in the
missing implementation) with the two values `ConversationStart` and
`PerPrompt`. -/
inductive HookTrigger where
  | conversationStart
  | perPrompt
deriving DecidableEq, Repr

/-- Modelled from the spec: the execution-mechanism tag (`HookType`),
currently only `Inline`. -/
inductive HookType where
  | inline
deriving DecidableEq, Repr

/-- Modelled from the spec: process-wide default for `timeout_ms`. The
spec fixes only its existence, not its value; the claims never depend on
the value. -/
def DEFAULT_TIMEOUT_MS : Nat := 30000

/-- Modelled from the spec: process-wide default for `max_output_size`.
The spec fixes only its existence, not its value. -/
def DEFAULT_MAX_OUTPUT_SIZE : Nat := 10240

/-- Modelled from the spec: process-wide default for `cache_ttl_seconds`;
the spec's testable properties state the default ttl is 0. -/
def DEFAULT_CACHE_TTL_SECONDS : Nat := 0

/-- Modelled from the spec: the hook descriptor (`Hook` in the missing
implementation), an immutable configuration value. Field names follow the
test module of `hooks.rs`. -/
structure Hook where
  type : HookType
  command : Option String
  trigger : HookTrigger
  disabled : Bool
  timeout_ms : Nat
  max_output_size : Nat
  cache_ttl_seconds : Nat
  is_global : Bool
deriving DecidableEq, Repr

/-- Modelled from the spec: `Hook::new_inline_hook`, the construction
helper that applies the default constants (per `test_hook_creation`). -/
def Hook.new_inline_hook (trigger : HookTrigger) (command : String) : Hook :=
  { type := HookType.inline
    command := some command
    trigger := trigger
    disabled := false
    timeout_ms := DEFAULT_TIMEOUT_MS
    max_output_size := DEFAULT_MAX_OUTPUT_SIZE
    cache_ttl_seconds := DEFAULT_CACHE_TTL_SECONDS
    is_global := false }

/-- Modelled from the spec: `CachedHook` / `CacheEntry`, a cached output
with an optional expiry instant (`none` = valid for the remaining life of
the engine instance). -/
structure CachedHook where
  output : String
  expiry : Option Nat
deriving DecidableEq, Repr

/-- Modelled from the spec: the cache key is the hook's behavioral
identity, the combination of `trigger` and `command` text. -/
def hookKey (h : Hook) : HookTrigger × Option String := (h.trigger, h.command)

/-- Modelled from the spec: the Cache Store mapping, represented as an
association list from behavioral identity to `CachedHook`; insertion
prepends and lookup takes the first match, so insertion overwrites. -/
abbrev Cache := List ((HookTrigger × Option String) × CachedHook)

/-- First entry stored under the given key, if any. -/
def lookupEntry : Cache → HookTrigger × Option String → Option CachedHook
  | [], _ => none
  | (k, e) :: rest, key => if k = key then some e else lookupEntry rest key

/-- Modelled from the spec: the Execution Engine / `HookExecutor`, which
owns the cache state; created with an empty Cache Store. -/
structure HookExecutor where
  cache : Cache
deriving Repr

/-- Modelled from the spec: `HookExecutor::new`, pairing a fresh engine
with an empty Cache Store. -/
def HookExecutor.new : HookExecutor := ⟨[]⟩

/-- Modelled from the spec: `insert_cache` / `put(hook, entry)` inserts or
overwrites the entry for the hook's identity. -/
def HookExecutor.insert_cache (ex : HookExecutor) (h : Hook) (entry : CachedHook) :
    HookExecutor :=
  ⟨(hookKey h, entry) :: ex.cache⟩

/-- Modelled from the spec: `get_cache` / `get(hook)` returns the cached
output if present and (expiry is `none` OR expiry is strictly in the
future at instant `now`); otherwise nothing. Expiry is checked lazily on
read; stale entries may remain in memory. -/
def HookExecutor.get_cache (ex : HookExecutor) (h : Hook) (now : Nat) : Option String :=
  match lookupEntry ex.cache (hookKey h) with
  | none => none
  | some e =>
    match e.expiry with
    | none => some e.output
    | some t => if now < t then some e.output else none

/-- Modelled from the spec: the behavior of one command under the host's
command interpreter — whether it spawns at all, how long it runs, and the
combined standard output it produces. -/
structure CommandBehavior where
  spawn_ok : Bool
  duration_ms : Nat
  output : String

/-- The platform shell, as a map from command text to behavior. -/
abbrev Env := String → CommandBehavior

/-- Modelled from the spec: executing one hook's command bounded by
`timeout_ms`. An absent command is legal and produces no output; a spawn
failure or a run exceeding the deadline yields `none` (the hook is
dropped). -/
def executeCommand (env : Env) (h : Hook) : Option String :=
  match h.command with
  | none => some ""
  | some c =>
    let b := env c
    if b.spawn_ok = true ∧ b.duration_ms ≤ h.timeout_ms then some b.output else none

/-- Modelled from the spec: the effective caching policy computed from
`(trigger, cache_ttl_seconds)` — `ConversationStart` hooks always use the
cache; `PerPrompt` hooks use it only when `cache_ttl_seconds > 0`. -/
def cacheApplies (h : Hook) : Bool :=
  match h.trigger with
  | HookTrigger.conversationStart => true
  | HookTrigger.perPrompt => h.cache_ttl_seconds != 0

/-- Modelled from the spec: the expiry stored with a cached entry —
`none` when `cache_ttl_seconds == 0`, otherwise `now` plus the ttl
(converted to milliseconds). -/
def expiryFor (h : Hook) (now : Nat) : Option Nat :=
  if h.cache_ttl_seconds = 0 then none else some (now + h.cache_ttl_seconds * 1000)

/-- The fixed truncation marker appended to oversized output. -/
def TRUNCATED_SUFFIX : String := " ... truncated"

/-- Modelled from the spec: output truncation — output longer than
`maxSize` is cut to exactly `maxSize` units and the fixed suffix marker is
appended; shorter output is returned unmodified. -/
def truncateOutput (maxSize : Nat) (out : String) : String :=
  if out.length > maxSize then String.mk (out.data.take maxSize) ++ TRUNCATED_SUFFIX
  else out

/-- Modelled from the spec: the per-hook processing step of the Execution
Engine. Returns the updated engine, the hook's optional result entry, and
the list of progress-sink write events. A disabled hook is omitted with
no cache interaction and no output; a cache hit is served with no spawn
and no sink write; a fresh run writes its raw output to the sink,
truncates it, and stores it when the policy says cache applies; a
timed-out or failed spawn contributes nothing. -/
def runOne (env : Env) (now : Nat) (ex : HookExecutor) (h : Hook) :
    HookExecutor × Option (Hook × String) × List String :=
  if h.disabled then (ex, none, [])
  else if cacheApplies h then
    match ex.get_cache h now with
    | some out => (ex, some (h, out), [])
    | none =>
      match executeCommand env h with
      | none => (ex, none, [])
      | some raw =>
        let out := truncateOutput h.max_output_size raw
        (ex.insert_cache h ⟨out, expiryFor h now⟩, some (h, out), [raw])
  else
    match executeCommand env h with
    | none => (ex, none, [])
    | some raw => (ex, some (h, truncateOutput h.max_output_size raw), [raw])

/-- Modelled from the spec: `run_hooks`, the engine's single entry point —
processes the ordered hook list and returns the updated engine, the
ordered result list of (hook, output) pairs, and the concatenated
progress-sink write events. -/
def run_hooks (env : Env) (now : Nat) :
    HookExecutor → List Hook → HookExecutor × List (Hook × String) × List String
  | ex, [] => (ex, [], [])
  | ex, h :: rest =>
    let step := runOne env now ex h
    let tail := run_hooks env now step.1 rest
    (tail.1, step.2.1.toList ++ tail.2.1, step.2.2 ++ tail.2.2)

/-- Shell model used for concrete instances: every command spawns,
finishes immediately, and prints `test output`. -/
def wEnv : Env := fun _ => ⟨true, 0, "test output"⟩

/-- Shell model where every command runs for 2000 ms. -/
def wEnvSlow : Env := fun _ => ⟨true, 2000, "late"⟩

/-- Concrete `ConversationStart` hook with all defaults. -/
def whConv : Hook := Hook.new_inline_hook HookTrigger.conversationStart "echo conv"

/-- Concrete `PerPrompt` hook with all defaults. -/
def whPrompt : Hook := Hook.new_inline_hook HookTrigger.perPrompt "echo prompt"

/-- Concrete `PerPrompt` hook with a 60 second cache ttl. -/
def whPrompt60 : Hook :=
  { Hook.new_inline_hook HookTrigger.perPrompt "echo prompt" with cache_ttl_seconds := 60 }

/-- Concrete `PerPrompt` hook with a 1 second cache ttl. -/
def whPrompt1 : Hook :=
  { Hook.new_inline_hook HookTrigger.perPrompt "echo prompt" with cache_ttl_seconds := 1 }

/-- Concrete hook whose command sleeps past its 100 ms timeout. -/
def whSlow : Hook :=
  { Hook.new_inline_hook HookTrigger.perPrompt "sleep 2" with timeout_ms := 100 }

/-- Concrete disabled hook. -/
def whDisabled : Hook :=
  { Hook.new_inline_hook HookTrigger.perPrompt "echo x" with disabled := true }

/-- Concrete hook with a 3 unit output cap. -/
def whTrunc : Hook :=
  { Hook.new_inline_hook HookTrigger.perPrompt "spam" with max_output_size := 3 }

/-- Shell model producing a 40 character output for every command. -/
def cexEnv : Env := fun _ => ⟨true, 0, "0123456789012345678901234567890123456789"⟩

/-- Hook sharing trigger `PerPrompt` and command `cmd`, with a large
output cap; it populates the cache. -/
def cexHookA : Hook :=
  { Hook.new_inline_hook HookTrigger.perPrompt "cmd" with
      cache_ttl_seconds := 60, max_output_size := 100 }

/-- Hook with the same behavioral identity as `cexHookA` but a 5 unit
output cap; it is served from the cache populated by `cexHookA`. -/
def cexHookB : Hook :=
  { Hook.new_inline_hook HookTrigger.perPrompt "cmd" with
      cache_ttl_seconds := 60, max_output_size := 5 }

/-- A hook with `ConversationStart` trigger always uses the cache. -/
theorem cacheApplies_conversation_start (h : Hook)
    (htr : h.trigger = HookTrigger.conversationStart) : cacheApplies h = true := by
  simp [cacheApplies, htr]

/-- A hook with nonzero ttl always uses the cache, for either trigger. -/
theorem cacheApplies_of_ttl_ne_zero (h : Hook) (httl : h.cache_ttl_seconds ≠ 0) :
    cacheApplies h = true := by
  cases htr : h.trigger <;> simp [cacheApplies, htr, httl]

/-- A `PerPrompt` hook with zero ttl bypasses the cache. -/
theorem cacheApplies_per_prompt_zero (h : Hook)
    (htr : h.trigger = HookTrigger.perPrompt) (httl : h.cache_ttl_seconds = 0) :
    cacheApplies h = false := by
  simp [cacheApplies, htr, httl]

/-- Reading back the entry just inserted for the same hook checks only
that entry's expiry. -/
theorem get_cache_insert_self (ex : HookExecutor) (h : Hook) (e : CachedHook) (now : Nat) :
    (ex.insert_cache h e).get_cache h now =
      match e.expiry with
      | none => some e.output
      | some t => if now < t then some e.output else none := by
  simp [HookExecutor.get_cache, HookExecutor.insert_cache, lookupEntry]

/-- A fresh engine's cache is empty, so every lookup misses. -/
theorem get_cache_new (h : Hook) (now : Nat) :
    HookExecutor.new.get_cache h now = none := by
  simp [HookExecutor.get_cache, HookExecutor.new, lookupEntry]

/-- A disabled hook is a no-op for the engine state, the result list and
the sink. -/
theorem runOne_disabled (env : Env) (now : Nat) (ex : HookExecutor) (h : Hook)
    (hd : h.disabled = true) : runOne env now ex h = (ex, none, []) := by
  simp [runOne, hd]

/-- A cache hit is served as the result with no state change and no sink
write. -/
theorem runOne_cache_hit (env : Env) (now : Nat) (ex : HookExecutor) (h : Hook)
    (out : String) (hd : h.disabled = false) (hc : cacheApplies h = true)
    (hg : ex.get_cache h now = some out) :
    runOne env now ex h = (ex, some (h, out), []) := by
  simp [runOne, hd, hc, hg]

/-- On a cache miss the command runs, the raw output is written to the
sink, and the truncated output is stored and returned. -/
theorem runOne_cache_miss_run (env : Env) (now : Nat) (ex : HookExecutor) (h : Hook)
    (raw : String) (hd : h.disabled = false) (hc : cacheApplies h = true)
    (hg : ex.get_cache h now = none) (he : executeCommand env h = some raw) :
    runOne env now ex h =
      (ex.insert_cache h ⟨truncateOutput h.max_output_size raw, expiryFor h now⟩,
       some (h, truncateOutput h.max_output_size raw), [raw]) := by
  simp [runOne, hd, hc, hg, he]

/-- When the policy says no cache, the command runs fresh and nothing is
stored. -/
theorem runOne_no_cache_run (env : Env) (now : Nat) (ex : HookExecutor) (h : Hook)
    (raw : String) (hd : h.disabled = false) (hc : cacheApplies h = false)
    (he : executeCommand env h = some raw) :
    runOne env now ex h = (ex, some (h, truncateOutput h.max_output_size raw), [raw]) := by
  simp [runOne, hd, hc, he]

/-- A hook whose command fails or exceeds its deadline contributes
nothing, provided no valid cache entry pre-empted the run. -/
theorem runOne_dropped (env : Env) (now : Nat) (ex : HookExecutor) (h : Hook)
    (hd : h.disabled = false) (hg : ex.get_cache h now = none)
    (he : executeCommand env h = none) :
    runOne env now ex h = (ex, none, []) := by
  by_cases hc : cacheApplies h <;> simp [runOne, hd, hc, hg, he]

/-- Running a single hook is exactly one `runOne` step. -/
theorem run_hooks_singleton (env : Env) (now : Nat) (ex : HookExecutor) (h : Hook) :
    run_hooks env now ex [h] =
      ((runOne env now ex h).1, (runOne env now ex h).2.1.toList,
       (runOne env now ex h).2.2) := by
  simp [run_hooks]

/-- C10: the Cache Store operations are policy-free — for every hook,
with no condition on its trigger or ttl (so in particular for a
`PerPrompt` hook with `cache_ttl_seconds = 0`, which `run_hooks` would
never cache), inserting an entry with `expiry = none` via `insert_cache`
and reading it back via `get_cache` returns the stored output text
unchanged at every instant. -/
theorem cache_roundtrip_policy_free (ex : HookExecutor) (h : Hook) (out : String)
    (now : Nat) :
    (ex.insert_cache h ⟨out, none⟩).get_cache h now = some out := by
  simp [HookExecutor.get_cache, HookExecutor.insert_cache, lookupEntry]

/-- C8: `get_cache` returns the stored output exactly when the entry is
present and its expiry is `none` or strictly in the future; an entry
whose expiry is at or before the current instant reads back as absent,
indistinguishable from the fresh engine's empty cache. -/
theorem cache_entry_expiry_semantics (ex : HookExecutor) (h : Hook) (out : String)
    (now t1 t2 : Nat) (hfut : now < t1) (hpast : t2 ≤ now) :
    (ex.insert_cache h ⟨out, none⟩).get_cache h now = some out ∧
    (ex.insert_cache h ⟨out, some t1⟩).get_cache h now = some out ∧
    (ex.insert_cache h ⟨out, some t2⟩).get_cache h now = none ∧
    (ex.insert_cache h ⟨out, some t2⟩).get_cache h now =
      HookExecutor.new.get_cache h now := by
  refine ⟨?_, ?_, ?_, ?_⟩
  · rw [get_cache_insert_self]
  · rw [get_cache_insert_self]
    simp [hfut]
  · rw [get_cache_insert_self]
    simp [Nat.not_lt.mpr hpast]
  · rw [get_cache_insert_self, get_cache_new]
    simp [Nat.not_lt.mpr hpast]

/-- Witness for C8 at a concrete engine, hook, output and instants. -/
theorem cache_entry_expiry_semantics_witness :
    (HookExecutor.new.insert_cache whPrompt ⟨"test output", none⟩).get_cache whPrompt 5 =
      some "test output" ∧
    (HookExecutor.new.insert_cache whPrompt ⟨"test output", some 9⟩).get_cache whPrompt 5 =
      some "test output" ∧
    (HookExecutor.new.insert_cache whPrompt ⟨"test output", some 5⟩).get_cache whPrompt 5 =
      none ∧
    (HookExecutor.new.insert_cache whPrompt ⟨"test output", some 5⟩).get_cache whPrompt 5 =
      HookExecutor.new.get_cache whPrompt 5 :=
  cache_entry_expiry_semantics HookExecutor.new whPrompt "test output" 5 9 5
    (by decide) (by decide)

/-- C5: a non-disabled hook whose command exceeds its `timeout_ms` (and
which is not pre-empted by a valid cache entry) is omitted from the
returned list entirely — no result entry, no error value, no sink write,
the engine state unchanged — while the `run_hooks` call itself
succeeds. -/
theorem timeout_hook_dropped (env : Env) (now : Nat) (ex : HookExecutor) (h : Hook)
    (c : String) (hd : h.disabled = false) (hcmd : h.command = some c)
    (hslow : h.timeout_ms < (env c).duration_ms)
    (hmiss : ex.get_cache h now = none) :
    run_hooks env now ex [h] = (ex, [], []) := by
  have hnot : ¬((env c).spawn_ok = true ∧ (env c).duration_ms ≤ h.timeout_ms) := by
    rintro ⟨-, hle⟩
    omega
  have he : executeCommand env h = none := by
    simp [executeCommand, hcmd, hnot]
  rw [run_hooks_singleton, runOne_dropped env now ex h hd hmiss he]
  rfl

/-- Witness for C5: a command that runs 2000 ms against a 100 ms timeout
yields zero results from a fresh engine. -/
theorem timeout_hook_dropped_witness :
    run_hooks wEnvSlow 0 HookExecutor.new [whSlow] = (HookExecutor.new, [], []) :=
  timeout_hook_dropped wEnvSlow 0 HookExecutor.new whSlow "sleep 2" rfl rfl
    (by decide) rfl

/-- C7: a hook with `disabled = true` never appears in results and its
processing leaves everything else untouched — deleting it from any
position of the input list changes neither the final engine state (so no
cache read or write), nor the result list, nor the progress sink. -/
theorem disabled_hook_frame (env : Env) (now : Nat) (ex : HookExecutor)
    (pre post : List Hook) (d : Hook) (hd : d.disabled = true) :
    run_hooks env now ex (pre ++ d :: post) = run_hooks env now ex (pre ++ post) := by
  induction pre generalizing ex with
  | nil =>
    simp only [List.nil_append, run_hooks, runOne_disabled env now ex d hd]
    simp
  | cons p pre ih =>
    simp only [List.cons_append, run_hooks, List.append_eq]
    rw [ih]

/-- Witness for C7: removing a concrete disabled hook between two live
hooks leaves the whole run unchanged. -/
theorem disabled_hook_frame_witness :
    run_hooks wEnv 0 HookExecutor.new ([whPrompt] ++ whDisabled :: [whConv]) =
      run_hooks wEnv 0 HookExecutor.new ([whPrompt] ++ [whConv]) :=
  disabled_hook_frame wEnv 0 HookExecutor.new [whPrompt] [whConv] whDisabled rfl

/-- C2: a `ConversationStart` hook with the default ttl (0), once
executed by a `run_hooks` call, is stored with `expiry = none`; every
later `run_hooks` call on that engine — at any later instant and under
any shell behavior, so without spawning a process — returns the
previously captured output, writes nothing to the progress sink, and
leaves the engine unchanged. -/
theorem conversation_start_default_cached (env env2 : Env) (now1 now2 : Nat)
    (ex : HookExecutor) (h : Hook) (raw : String)
    (htr : h.trigger = HookTrigger.conversationStart)
    (httl : h.cache_ttl_seconds = 0)
    (hd : h.disabled = false)
    (he : executeCommand env h = some raw)
    (hmiss : ex.get_cache h now1 = none) :
    (run_hooks env now1 ex [h]).2.1 = [(h, truncateOutput h.max_output_size raw)] ∧
    lookupEntry (run_hooks env now1 ex [h]).1.cache (hookKey h) =
      some ⟨truncateOutput h.max_output_size raw, none⟩ ∧
    run_hooks env2 now2 (run_hooks env now1 ex [h]).1 [h] =
      ((run_hooks env now1 ex [h]).1, [(h, truncateOutput h.max_output_size raw)], []) := by
  have hc : cacheApplies h = true := cacheApplies_conversation_start h htr
  have hexp : expiryFor h now1 = none := by simp [expiryFor, httl]
  have h1 : run_hooks env now1 ex [h] =
      (ex.insert_cache h ⟨truncateOutput h.max_output_size raw, none⟩,
       [(h, truncateOutput h.max_output_size raw)], [raw]) := by
    rw [run_hooks_singleton, runOne_cache_miss_run env now1 ex h raw hd hc hmiss he, hexp]
    rfl
  have hget : (ex.insert_cache h ⟨truncateOutput h.max_output_size raw, none⟩).get_cache
      h now2 = some (truncateOutput h.max_output_size raw) := by
    rw [get_cache_insert_self]
  refine ⟨by rw [h1], ?_, ?_⟩
  · rw [h1]
    simp [HookExecutor.insert_cache, lookupEntry]
  · rw [h1]
    rw [run_hooks_singleton, runOne_cache_hit env2 now2 _ h _ hd hc hget]
    rfl

/-- Witness for C2 at a concrete conversation-start hook: the second
call is evaluated under a shell model in which every command would time
out, showing no process is consulted. -/
theorem conversation_start_default_cached_witness :
    (run_hooks wEnv 0 HookExecutor.new [whConv]).2.1 =
      [(whConv, truncateOutput whConv.max_output_size "test output")] ∧
    lookupEntry (run_hooks wEnv 0 HookExecutor.new [whConv]).1.cache (hookKey whConv) =
      some ⟨truncateOutput whConv.max_output_size "test output", none⟩ ∧
    run_hooks wEnvSlow 999999 (run_hooks wEnv 0 HookExecutor.new [whConv]).1 [whConv] =
      ((run_hooks wEnv 0 HookExecutor.new [whConv]).1,
       [(whConv, truncateOutput whConv.max_output_size "test output")], []) :=
  conversation_start_default_cached wEnv wEnvSlow 0 999999 HookExecutor.new whConv
    "test output" rfl rfl rfl rfl rfl

/-- C3: a `PerPrompt` hook with the default ttl (0) is executed afresh on
every call with no cache read and no cache write — for every starting
engine state (even one holding a valid entry for its identity) the call
returns a fresh result, writes the raw output to the progress sink, and
leaves the engine unchanged; hence a second successive call behaves
identically. -/
theorem per_prompt_default_fresh (env : Env) (now1 now2 : Nat) (ex : HookExecutor)
    (h : Hook) (raw : String)
    (htr : h.trigger = HookTrigger.perPrompt)
    (httl : h.cache_ttl_seconds = 0)
    (hd : h.disabled = false)
    (he : executeCommand env h = some raw) :
    run_hooks env now1 ex [h] =
      (ex, [(h, truncateOutput h.max_output_size raw)], [raw]) ∧
    run_hooks env now2 (run_hooks env now1 ex [h]).1 [h] =
      (ex, [(h, truncateOutput h.max_output_size raw)], [raw]) := by
  have hc : cacheApplies h = false := cacheApplies_per_prompt_zero h htr httl
  have key : ∀ n : Nat, run_hooks env n ex [h] =
      (ex, [(h, truncateOutput h.max_output_size raw)], [raw]) := by
    intro n
    rw [run_hooks_singleton, runOne_no_cache_run env n ex h raw hd hc he]
    rfl
  refine ⟨key now1, ?_⟩
  rw [key now1]
  exact key now2

/-- Witness for C3: two successive calls with a default per-prompt hook
both produce a fresh result and both write to the sink. -/
theorem per_prompt_default_fresh_witness :
    run_hooks wEnv 0 HookExecutor.new [whPrompt] =
      (HookExecutor.new, [(whPrompt, truncateOutput whPrompt.max_output_size "test output")],
       ["test output"]) ∧
    run_hooks wEnv 7 (run_hooks wEnv 0 HookExecutor.new [whPrompt]).1 [whPrompt] =
      (HookExecutor.new, [(whPrompt, truncateOutput whPrompt.max_output_size "test output")],
       ["test output"]) :=
  per_prompt_default_fresh wEnv 0 7 HookExecutor.new whPrompt "test output" rfl rfl rfl rfl

/-- C4: a `PerPrompt` hook with `cache_ttl_seconds = 60` stores its first
output with `expiry = now + 60 s`; a second call strictly within 60
seconds — at any instant and under any shell behavior — returns the first
call's output, writes nothing to the progress sink, and leaves the engine
unchanged. -/
theorem per_prompt_ttl_cached (env env2 : Env) (now1 now2 : Nat)
    (ex : HookExecutor) (h : Hook) (raw : String)
    (_htr : h.trigger = HookTrigger.perPrompt)
    (httl : h.cache_ttl_seconds = 60)
    (hd : h.disabled = false)
    (he : executeCommand env h = some raw)
    (hmiss : ex.get_cache h now1 = none)
    (hwithin : now2 < now1 + 60 * 1000) :
    (run_hooks env now1 ex [h]).2.1 = [(h, truncateOutput h.max_output_size raw)] ∧
    (run_hooks env now1 ex [h]).2.2 = [raw] ∧
    lookupEntry (run_hooks env now1 ex [h]).1.cache (hookKey h) =
      some ⟨truncateOutput h.max_output_size raw, some (now1 + 60 * 1000)⟩ ∧
    run_hooks env2 now2 (run_hooks env now1 ex [h]).1 [h] =
      ((run_hooks env now1 ex [h]).1, [(h, truncateOutput h.max_output_size raw)], []) := by
  have hc : cacheApplies h = true := cacheApplies_of_ttl_ne_zero h (by rw [httl]; simp)
  have hexp : expiryFor h now1 = some (now1 + 60 * 1000) := by simp [expiryFor, httl]
  have h1 : run_hooks env now1 ex [h] =
      (ex.insert_cache h ⟨truncateOutput h.max_output_size raw, some (now1 + 60 * 1000)⟩,
       [(h, truncateOutput h.max_output_size raw)], [raw]) := by
    rw [run_hooks_singleton, runOne_cache_miss_run env now1 ex h raw hd hc hmiss he, hexp]
    rfl
  have hget : (ex.insert_cache h
      ⟨truncateOutput h.max_output_size raw, some (now1 + 60 * 1000)⟩).get_cache h now2 =
      some (truncateOutput h.max_output_size raw) := by
    rw [get_cache_insert_self]
    simp [hwithin]
  refine ⟨by rw [h1], by rw [h1], ?_, ?_⟩
  · rw [h1]
    simp [HookExecutor.insert_cache, lookupEntry]
  · rw [h1]
    rw [run_hooks_singleton, runOne_cache_hit env2 now2 _ h _ hd hc hget]
    rfl

/-- Witness for C4: with ttl 60, a second call 5 ms later is served from
the cache, under a shell model in which every command would time out. -/
theorem per_prompt_ttl_cached_witness :
    (run_hooks wEnv 0 HookExecutor.new [whPrompt60]).2.1 =
      [(whPrompt60, truncateOutput whPrompt60.max_output_size "test output")] ∧
    (run_hooks wEnv 0 HookExecutor.new [whPrompt60]).2.2 = ["test output"] ∧
    lookupEntry (run_hooks wEnv 0 HookExecutor.new [whPrompt60]).1.cache
      (hookKey whPrompt60) =
      some ⟨truncateOutput whPrompt60.max_output_size "test output", some (0 + 60 * 1000)⟩ ∧
    run_hooks wEnvSlow 5 (run_hooks wEnv 0 HookExecutor.new [whPrompt60]).1 [whPrompt60] =
      ((run_hooks wEnv 0 HookExecutor.new [whPrompt60]).1,
       [(whPrompt60, truncateOutput whPrompt60.max_output_size "test output")], []) :=
  per_prompt_ttl_cached wEnv wEnvSlow 0 5 HookExecutor.new whPrompt60 "test output"
    rfl rfl rfl rfl rfl (by decide)

/-- C9: a hook with `cache_ttl_seconds = 1` (either trigger) stores its
first output with `expiry = now + 1 s`; a call more than one second later
finds the entry expired — a cache miss, not an error — re-executes the
command, returns a fresh result, and writes the fresh raw output to the
progress sink. -/
theorem cache_expiry_reexecution (env env2 : Env) (now1 now2 : Nat)
    (ex : HookExecutor) (h : Hook) (raw raw2 : String)
    (httl : h.cache_ttl_seconds = 1)
    (hd : h.disabled = false)
    (he : executeCommand env h = some raw)
    (he2 : executeCommand env2 h = some raw2)
    (hmiss : ex.get_cache h now1 = none)
    (hlate : now1 + 1000 < now2) :
    (run_hooks env now1 ex [h]).2.1 = [(h, truncateOutput h.max_output_size raw)] ∧
    lookupEntry (run_hooks env now1 ex [h]).1.cache (hookKey h) =
      some ⟨truncateOutput h.max_output_size raw, some (now1 + 1000)⟩ ∧
    run_hooks env2 now2 (run_hooks env now1 ex [h]).1 [h] =
      ((run_hooks env now1 ex [h]).1.insert_cache h
         ⟨truncateOutput h.max_output_size raw2, some (now2 + 1000)⟩,
       [(h, truncateOutput h.max_output_size raw2)], [raw2]) := by
  have hc : cacheApplies h = true := cacheApplies_of_ttl_ne_zero h (by rw [httl]; simp)
  have hexp1 : expiryFor h now1 = some (now1 + 1000) := by simp [expiryFor, httl]
  have hexp2 : expiryFor h now2 = some (now2 + 1000) := by simp [expiryFor, httl]
  have h1 : run_hooks env now1 ex [h] =
      (ex.insert_cache h ⟨truncateOutput h.max_output_size raw, some (now1 + 1000)⟩,
       [(h, truncateOutput h.max_output_size raw)], [raw]) := by
    rw [run_hooks_singleton, runOne_cache_miss_run env now1 ex h raw hd hc hmiss he, hexp1]
    rfl
  have hget2 : (ex.insert_cache h
      ⟨truncateOutput h.max_output_size raw, some (now1 + 1000)⟩).get_cache h now2 =
      none := by
    rw [get_cache_insert_self]
    simp [Nat.not_lt.mpr (Nat.le_of_lt hlate)]
  refine ⟨by rw [h1], ?_, ?_⟩
  · rw [h1]
    simp [HookExecutor.insert_cache, lookupEntry]
  · rw [h1]
    rw [run_hooks_singleton,
      runOne_cache_miss_run env2 now2 _ h raw2 hd hc hget2 he2, hexp2]
    rfl

/-- Witness for C9: with ttl 1, a second call 1001 ms later re-executes
and writes fresh output to the sink. -/
theorem cache_expiry_reexecution_witness :
    (run_hooks wEnv 0 HookExecutor.new [whPrompt1]).2.1 =
      [(whPrompt1, truncateOutput whPrompt1.max_output_size "test output")] ∧
    lookupEntry (run_hooks wEnv 0 HookExecutor.new [whPrompt1]).1.cache
      (hookKey whPrompt1) =
      some ⟨truncateOutput whPrompt1.max_output_size "test output", some (0 + 1000)⟩ ∧
    run_hooks wEnv 1001 (run_hooks wEnv 0 HookExecutor.new [whPrompt1]).1 [whPrompt1] =
      ((run_hooks wEnv 0 HookExecutor.new [whPrompt1]).1.insert_cache whPrompt1
         ⟨truncateOutput whPrompt1.max_output_size "test output", some (1001 + 1000)⟩,
       [(whPrompt1, truncateOutput whPrompt1.max_output_size "test output")],
       ["test output"]) :=
  cache_expiry_reexecution wEnv wEnv 0 1001 HookExecutor.new whPrompt1
    "test output" "test output" rfl rfl rfl rfl rfl (by decide)

/-- C1: for every ordered input list in which no hook is disabled and
every hook's command completes within its timeout, `run_hooks` returns
exactly one (hook, output) pair per input hook and the sequence of first
components equals the input list — whether each hook was served from the
cache or executed freshly. -/
theorem run_hooks_order_preservation (env : Env) (now : Nat) (ex : HookExecutor)
    (hooks : List Hook)
    (hh : ∀ h ∈ hooks, h.disabled = false ∧ (executeCommand env h).isSome) :
    ((run_hooks env now ex hooks).2.1).map Prod.fst = hooks := by
  induction hooks generalizing ex with
  | nil => rfl
  | cons h rest ih =>
    have hd := (hh h (List.mem_cons_self h rest)).1
    obtain ⟨raw, hraw⟩ :=
      Option.isSome_iff_exists.mp (hh h (List.mem_cons_self h rest)).2
    have hfst : ∃ out, (runOne env now ex h).2.1 = some (h, out) := by
      by_cases hc : cacheApplies h = true
      · cases hg : ex.get_cache h now with
        | some out => exact ⟨out, by rw [runOne_cache_hit env now ex h out hd hc hg]⟩
        | none =>
          exact ⟨_, by rw [runOne_cache_miss_run env now ex h raw hd hc hg hraw]⟩
      · have hc2 : cacheApplies h = false := by
          cases hb : cacheApplies h
          · rfl
          · exact absurd hb hc
        exact ⟨_, by rw [runOne_no_cache_run env now ex h raw hd hc2 hraw]⟩
    obtain ⟨out, hout⟩ := hfst
    have htail := ih (runOne env now ex h).1 (fun x hx => hh x (List.mem_cons_of_mem h hx))
    simp only [run_hooks, hout, List.map_append, Option.toList_some, List.map_cons,
      List.map_nil, List.singleton_append]
    rw [htail]

/-- Witness for C1 on a concrete two-hook list. -/
theorem run_hooks_order_preservation_witness :
    ((run_hooks wEnv 0 HookExecutor.new [whPrompt, whConv]).2.1).map Prod.fst =
      [whPrompt, whConv] :=
  run_hooks_order_preservation wEnv 0 HookExecutor.new [whPrompt, whConv] (by decide)

/-- Truncated output never exceeds the cap plus the fixed suffix. -/
theorem truncateOutput_length_le (m : Nat) (s : String) :
    (truncateOutput m s).length ≤ m + TRUNCATED_SUFFIX.length := by
  unfold truncateOutput
  split
  · rw [String.length_append, String.length_mk, List.length_take]
    exact Nat.add_le_add_right (Nat.min_le_left m _) _
  · rename_i hle
    exact le_trans (Nat.le_of_not_lt hle) (Nat.le_add_right m _)

/-- Output within the cap is returned unmodified. -/
theorem truncateOutput_of_le (m : Nat) (s : String) (hle : s.length ≤ m) :
    truncateOutput m s = s := by
  unfold truncateOutput
  rw [if_neg (Nat.not_lt.mpr hle)]

/-- A hook whose processing wrote `raw` to the sink was executed freshly,
and its result entry is the truncation of `raw`. -/
theorem runOne_fresh_characterization (env : Env) (now : Nat) (ex : HookExecutor)
    (h : Hook) (raw : String) (hfresh : (runOne env now ex h).2.2 = [raw]) :
    (runOne env now ex h).2.1 = some (h, truncateOutput h.max_output_size raw) := by
  by_cases hd : h.disabled = true
  · rw [runOne_disabled env now ex h hd] at hfresh
    simp at hfresh
  · have hd2 : h.disabled = false := by
      cases hb : h.disabled
      · rfl
      · exact absurd hb hd
    by_cases hc : cacheApplies h = true
    · cases hg : ex.get_cache h now with
      | some out =>
        rw [runOne_cache_hit env now ex h out hd2 hc hg] at hfresh
        simp at hfresh
      | none =>
        cases he : executeCommand env h with
        | none =>
          rw [runOne_dropped env now ex h hd2 hg he] at hfresh
          simp at hfresh
        | some raw2 =>
          rw [runOne_cache_miss_run env now ex h raw2 hd2 hc hg he] at hfresh
          rw [runOne_cache_miss_run env now ex h raw2 hd2 hc hg he]
          simp at hfresh
          rw [hfresh]
    · have hc2 : cacheApplies h = false := by
        cases hb : cacheApplies h
        · rfl
        · exact absurd hb hc
      cases he : executeCommand env h with
      | none =>
        simp [runOne, hd2, hc2, he] at hfresh
      | some raw2 =>
        rw [runOne_no_cache_run env now ex h raw2 hd2 hc2 he] at hfresh
        rw [runOne_no_cache_run env now ex h raw2 hd2 hc2 he]
        simp at hfresh
        rw [hfresh]

/-- C6 counterexample: two hooks share the behavioral identity
`(PerPrompt, "cmd")` but have different `max_output_size`. `cexHookA`
(cap 100) runs a command printing 40 characters and caches them
unmodified; `cexHookB` (cap 5) is then served that cached text, so
`run_hooks` returns for `cexHookB` an output of length 40, exceeding its
bound `5 + 14 = 19` — refuting the claim that every output returned by
`run_hooks` is within `max_output_size + len(" ... truncated")`. -/
theorem truncation_bound_cex :
    (run_hooks cexEnv 1 (run_hooks cexEnv 0 HookExecutor.new [cexHookA]).1
        [cexHookB]).2.1 =
      [(cexHookB, "0123456789012345678901234567890123456789")] ∧
    ¬((("0123456789012345678901234567890123456789" : String)).length ≤
        cexHookB.max_output_size + TRUNCATED_SUFFIX.length) :=
  ⟨rfl, by decide⟩

/-- C6 amended: every output produced by a fresh execution — a
`run_hooks` call that wrote the captured output `raw` to the progress
sink for the hook — is exactly `raw` cut to `max_output_size` units with
the fixed suffix appended when it exceeds the cap, hence of length at
most `max_output_size + len(" ... truncated")`, and equal to `raw`
unmodified when `raw` does not exceed the cap. (An output served from
the cache is bounded by the cap of the hook that stored it, which may
exceed the reading hook's cap when two hooks share trigger and command.) -/
theorem truncation_bound_fresh (env : Env) (now : Nat) (ex : HookExecutor)
    (h : Hook) (raw : String)
    (hfresh : (run_hooks env now ex [h]).2.2 = [raw]) :
    (run_hooks env now ex [h]).2.1 = [(h, truncateOutput h.max_output_size raw)] ∧
    (truncateOutput h.max_output_size raw).length ≤
      h.max_output_size + TRUNCATED_SUFFIX.length ∧
    (raw.length ≤ h.max_output_size → truncateOutput h.max_output_size raw = raw) := by
  rw [run_hooks_singleton] at hfresh
  have hq := runOne_fresh_characterization env now ex h raw (by simpa using hfresh)
  refine ⟨?_, truncateOutput_length_le h.max_output_size raw,
    truncateOutput_of_le h.max_output_size raw⟩
  rw [run_hooks_singleton]
  simp [hq]

/-- Witness for C6 amended: a hook with cap 3 against an 11 character
output yields the truncated result within the bound. -/
theorem truncation_bound_fresh_witness :
    (run_hooks wEnv 0 HookExecutor.new [whTrunc]).2.1 =
      [(whTrunc, truncateOutput whTrunc.max_output_size "test output")] ∧
    (truncateOutput whTrunc.max_output_size "test output").length ≤
      whTrunc.max_output_size + TRUNCATED_SUFFIX.length ∧
    (("test output" : String).length ≤ whTrunc.max_output_size →
      truncateOutput whTrunc.max_output_size "test output" = "test output") :=
  truncation_bound_fresh wEnv 0 HookExecutor.new whTrunc "test output" rfl

end HookEngine
